import Mathlib

/-!
Shallow embedding of the esdc validation engine (src/esdc/re0.py and
src/esdc/validate.py) and proofs about its rule functions, executor and
result aggregator.

The dataset is a pandas DataFrame; we embed it as a list of labelled rows
(label = pandas row index label, an integer; a frame fresh from
read_sql_query carries the default RangeIndex 0..n-1).  Numeric measured
columns are float64 with NaN for SQL NULL; every comparison the rules
perform on them is embedded with pandas/IEEE semantics: a comparison
involving NaN yields False.  We model a cell as Option Rat, none standing
for NaN/NULL, and the comparisons as Bool-valued functions that return
false when either side is none.
-/

namespace Esdc

/-- Modelled from the spec: the Severity enum is referenced by
validate.py (imported from selection.py) but its definition is not present
under src; the spec states it has exactly the values STRICT, WARNING and
INFO. -/
inductive Severity where
  | STRICT
  | WARNING
  | INFO
  deriving DecidableEq

/-- One dataset row: the columns of the project_resources table consumed by
the engine (validate.py volumetric_columns).  Identity columns are
non-null strings / integer year as loaded from SQL; measured quantities are
nullable floats, embedded as Option Rat. -/
structure Row where
  report_year : Int
  wk_name : String
  field_id : String
  field_name : String
  project_id : String
  project_name : String
  uncert_lvl : String
  rec_oil : Option Rat
  rec_con : Option Rat
  rec_ga : Option Rat
  rec_gn : Option Rat
  res_oil : Option Rat
  res_con : Option Rat
  res_ga : Option Rat
  res_gn : Option Rat
  prj_ioip : Option Rat
  prj_igip : Option Rat
  deriving DecidableEq

/-- A labelled frame: list of (index label, row), in frame order. -/
abbrev LFrame := List (Nat × Row)

/-- A boolean Series: list of (index label, value). -/
abbrev Mask := List (Nat × Bool)

/-- The 17 column names of validate.py volumetric_columns. -/
inductive Col where
  | report_year
  | wk_name
  | field_id
  | field_name
  | project_id
  | project_name
  | uncert_lvl
  | rec_oil
  | rec_con
  | rec_ga
  | rec_gn
  | res_oil
  | res_con
  | res_ga
  | res_gn
  | prj_ioip
  | prj_igip
  deriving DecidableEq

/-- validate.py RuleEngine volumetric_columns, in source order. -/
def volumetric_columns : List Col :=
  [Col.report_year, Col.wk_name, Col.field_id, Col.field_name,
   Col.project_id, Col.project_name, Col.uncert_lvl,
   Col.rec_oil, Col.rec_con, Col.rec_ga, Col.rec_gn,
   Col.res_oil, Col.res_con, Col.res_ga, Col.res_gn,
   Col.prj_ioip, Col.prj_igip]

/-- The identity columns: volumetric_columns up to index 7. -/
def identityCols : List Col := volumetric_columns.take 7

/-- The measured columns: volumetric_columns from index 7 on
(the slice written volumetric_columns seven colon in the source). -/
def measuredCols : List Col := volumetric_columns.drop 7

/-- The 4-tuple each rule returns: (column, rule id, severity, invalid mask). -/
structure RuleResult where
  column : Col
  rule_id : String
  severity : Severity
  invalid : Mask
  deriving DecidableEq

/-- Pandas comparison x greater-or-equal 0 on a float64 cell: NaN (our none)
compares False. -/
def geZero : Option Rat → Bool
  | some q => decide (0 ≤ q)
  | none => false

/-- Pandas comparison a less-or-equal b on float64 cells: any NaN side makes
the comparison False. -/
def leOpt : Option Rat → Option Rat → Bool
  | some a, some b => decide (a ≤ b)
  | _, _ => false

/-- Shared body of the bound rules re0007..re0014: filter the frame to rows
with uncert_lvl equal to the low rung (keeping their index labels), compare
the checked column against 0 and negate elementwise. -/
def boundInvalid (getv : Row → Option Rat) (d : LFrame) : Mask :=
  (d.filter (fun p => p.2.uncert_lvl == "1. Low Value")).map
    (fun p => (p.1, ! geZero (getv p.2)))

def re0007 (d : LFrame) : RuleResult :=
  ⟨Col.rec_oil, "re0007", Severity.STRICT, boundInvalid (fun r => r.rec_oil) d⟩

def re0008 (d : LFrame) : RuleResult :=
  ⟨Col.rec_con, "re0008", Severity.STRICT, boundInvalid (fun r => r.rec_con) d⟩

def re0009 (d : LFrame) : RuleResult :=
  ⟨Col.rec_ga, "re0009", Severity.STRICT, boundInvalid (fun r => r.rec_ga) d⟩

def re0010 (d : LFrame) : RuleResult :=
  ⟨Col.rec_gn, "re0010", Severity.STRICT, boundInvalid (fun r => r.rec_gn) d⟩

def re0011 (d : LFrame) : RuleResult :=
  ⟨Col.res_oil, "re0011", Severity.STRICT, boundInvalid (fun r => r.res_oil) d⟩

def re0012 (d : LFrame) : RuleResult :=
  ⟨Col.res_con, "re0012", Severity.STRICT, boundInvalid (fun r => r.res_con) d⟩

def re0013 (d : LFrame) : RuleResult :=
  ⟨Col.res_ga, "re0013", Severity.STRICT, boundInvalid (fun r => r.res_ga) d⟩

def re0014 (d : LFrame) : RuleResult :=
  ⟨Col.res_gn, "re0014", Severity.STRICT, boundInvalid (fun r => r.res_gn) d⟩

/-- The merge key of the ladder rules: (project_id, report_year). -/
def keyOf (r : Row) : String × Int := (r.project_id, r.report_year)

/-- The right side of the ladder-rule merge: rows at the comparison rung,
projected to (key, checked column value).  Embeds the loc filter plus
rename in re0015..re0022. -/
def rungLookup (lvl : String) (getv : Row → Option Rat) (rows : List Row) :
    List ((String × Int) × Option Rat) :=
  (rows.filter (fun r => r.uncert_lvl == lvl)).map (fun r => (keyOf r, getv r))

/-- Values of the lookup entries matching a key, in lookup order. -/
def joinMatches (lk : List ((String × Int) × Option Rat)) (k : String × Int) :
    List (Option Rat) :=
  (lk.filter (fun e => e.1 == k)).map (fun e => e.2)

/-- Pandas left merge on the key: every left row in order, one output row
per matching lookup entry (in lookup order), or a single row with a NaN
fill when no entry matches.  The merge output gets a fresh RangeIndex,
which we represent by returning the rows in order, unlabelled. -/
def leftJoin (rows : List Row) (lk : List ((String × Int) × Option Rat)) :
    List (Row × Option Rat) :=
  rows.flatMap (fun r =>
    let ms := joinMatches lk (keyOf r)
    if ms.isEmpty then [(r, none)] else ms.map (fun v => (r, v)))

/-- Shared body of the ladder rules re0015..re0022: build the comparison
rung lookup, left-merge it onto the frame (index reset to 0..m-1), filter
the merged frame to the base rung, compare base value against merged
comparison value and negate elementwise.  The labels of the returned mask
are positions in the merged frame, not labels of the input frame. -/
def ladderInvalid (baseLvl cmpLvl : String) (getv : Row → Option Rat)
    (d : LFrame) : Mask :=
  let rows := d.map Prod.snd
  let merged := leftJoin rows (rungLookup cmpLvl getv rows)
  (merged.enum.filter (fun p => p.2.1.uncert_lvl == baseLvl)).map
    (fun p => (p.1, ! leOpt (getv p.2.1) p.2.2))

def re0015 (d : LFrame) : RuleResult :=
  ⟨Col.rec_oil, "re0015", Severity.STRICT,
   ladderInvalid "1. Low Value" "2. Middle Value" (fun r => r.rec_oil) d⟩

def re0016 (d : LFrame) : RuleResult :=
  ⟨Col.rec_oil, "re0016", Severity.STRICT,
   ladderInvalid "2. Middle Value" "3. High Value" (fun r => r.rec_oil) d⟩

def re0017 (d : LFrame) : RuleResult :=
  ⟨Col.rec_con, "re0017", Severity.STRICT,
   ladderInvalid "1. Low Value" "2. Middle Value" (fun r => r.rec_con) d⟩

def re0018 (d : LFrame) : RuleResult :=
  ⟨Col.rec_con, "re0018", Severity.STRICT,
   ladderInvalid "2. Middle Value" "3. High Value" (fun r => r.rec_con) d⟩

def re0019 (d : LFrame) : RuleResult :=
  ⟨Col.rec_ga, "re0019", Severity.STRICT,
   ladderInvalid "1. Low Value" "2. Middle Value" (fun r => r.rec_ga) d⟩

def re0020 (d : LFrame) : RuleResult :=
  ⟨Col.rec_ga, "re0020", Severity.STRICT,
   ladderInvalid "2. Middle Value" "3. High Value" (fun r => r.rec_ga) d⟩

def re0021 (d : LFrame) : RuleResult :=
  ⟨Col.rec_gn, "re0021", Severity.STRICT,
   ladderInvalid "1. Low Value" "2. Middle Value" (fun r => r.rec_gn) d⟩

def re0022 (d : LFrame) : RuleResult :=
  ⟨Col.rec_gn, "re0022", Severity.STRICT,
   ladderInvalid "2. Middle Value" "3. High Value" (fun r => r.rec_gn) d⟩

/-- The registry rules0 of RuleEngine, in construction (= run) order. -/
def rules0 : List (LFrame → RuleResult) :=
  [re0007, re0008, re0009, re0010, re0011, re0012, re0013, re0014,
   re0015, re0016, re0017, re0018, re0019, re0020, re0021, re0022]

/-- One row of the report frame built by val_results_transform: the
projection of a dataset row to volumetric_columns after astype(str); every
cell is a string.  An empty string is the empty marker that the final
mask(frame equals empty string, NaN) turns into an absent cell. -/
structure VRow where
  report_year : String
  wk_name : String
  field_id : String
  field_name : String
  project_id : String
  project_name : String
  uncert_lvl : String
  rec_oil : String
  rec_con : String
  rec_ga : String
  rec_gn : String
  res_oil : String
  res_con : String
  res_ga : String
  res_gn : String
  prj_ioip : String
  prj_igip : String
  deriving DecidableEq

def VRow.get (v : VRow) : Col → String
  | Col.report_year => v.report_year
  | Col.wk_name => v.wk_name
  | Col.field_id => v.field_id
  | Col.field_name => v.field_name
  | Col.project_id => v.project_id
  | Col.project_name => v.project_name
  | Col.uncert_lvl => v.uncert_lvl
  | Col.rec_oil => v.rec_oil
  | Col.rec_con => v.rec_con
  | Col.rec_ga => v.rec_ga
  | Col.rec_gn => v.rec_gn
  | Col.res_oil => v.res_oil
  | Col.res_con => v.res_con
  | Col.res_ga => v.res_ga
  | Col.res_gn => v.res_gn
  | Col.prj_ioip => v.prj_ioip
  | Col.prj_igip => v.prj_igip

def VRow.set (v : VRow) (c : Col) (s : String) : VRow :=
  match c with
  | Col.report_year => { v with report_year := s }
  | Col.wk_name => { v with wk_name := s }
  | Col.field_id => { v with field_id := s }
  | Col.field_name => { v with field_name := s }
  | Col.project_id => { v with project_id := s }
  | Col.project_name => { v with project_name := s }
  | Col.uncert_lvl => { v with uncert_lvl := s }
  | Col.rec_oil => { v with rec_oil := s }
  | Col.rec_con => { v with rec_con := s }
  | Col.rec_ga => { v with rec_ga := s }
  | Col.rec_gn => { v with rec_gn := s }
  | Col.res_oil => { v with res_oil := s }
  | Col.res_con => { v with res_con := s }
  | Col.res_ga => { v with res_ga := s }
  | Col.res_gn => { v with res_gn := s }
  | Col.prj_ioip => { v with prj_ioip := s }
  | Col.prj_igip => { v with prj_igip := s }

/-- Lines 78-80 of validate.py applied to one row: project to
volumetric_columns, astype(str) the identity cells (strings pass through
str unchanged, the integer year becomes its decimal string), then assign
the empty string to every measured cell. -/
def toVRow (r : Row) : VRow :=
  { report_year := toString r.report_year
    wk_name := r.wk_name
    field_id := r.field_id
    field_name := r.field_name
    project_id := r.project_id
    project_name := r.project_name
    uncert_lvl := r.uncert_lvl
    rec_oil := ""
    rec_con := ""
    rec_ga := ""
    rec_gn := ""
    res_oil := ""
    res_con := ""
    res_ga := ""
    res_gn := ""
    prj_ioip := ""
    prj_igip := "" }

/-- A cell is absent (NaN after the mask step) iff it is the empty string. -/
def isAbsent (s : String) : Bool := s == ""

/-- Python str.upper as used on the ASCII rule ids: uppercase every
character. -/
def pyUpper (s : String) : String := String.mk (s.data.map Char.toUpper)

/-- The loop body of val_results_transform: if any mask entry is True,
take the labels of the True entries and append the upper-cased rule id plus
a semicolon to the cell at (label, rule column) of every frame row whose
label is among them. -/
def applyResult (vv : List (Nat × VRow)) (res : RuleResult) :
    List (Nat × VRow) :=
  if res.invalid.any (fun e => e.2) then
    let idx := (res.invalid.filter (fun e => e.2)).map (fun e => e.1)
    vv.map (fun p =>
      if idx.contains p.1 then
        (p.1, p.2.set res.column (p.2.get res.column ++ (pyUpper res.rule_id ++ ";")))
      else p)
  else vv

/-- The validation report: surviving rows (with their labels, in frame
order) and the list of surviving columns (in volumetric_columns order).
Pandas dropna(axis=1, how=all) keeps a column iff it has a non-NA cell in
some remaining row; on a frame with no remaining rows every column is
dropped. -/
structure Report where
  rows : List (Nat × VRow)
  cols : List Col
  deriving DecidableEq

/-- val_results_transform of validate.py: build the astype(str) projection
with blanked measured cells, run the accumulation loop over the results in
order, turn empty cells into NaN, drop rows whose measured cells are all
NaN, then drop columns that are all NaN over the remaining rows. -/
def val_results_transform (d : LFrame) (results : List RuleResult) : Report :=
  let vv0 := d.map (fun p => (p.1, toVRow p.2))
  let vv := results.foldl applyResult vv0
  let rows := vv.filter (fun p => ! measuredCols.all (fun c => isAbsent (p.2.get c)))
  let cols := volumetric_columns.filter
    (fun c => rows.any (fun p => ! isAbsent (p.2.get c)))
  ⟨rows, cols⟩

/-- RuleEngine.run: invoke every registered rule, in registry order, on the
shared frame, and hand the collected results to the val_results_transform. -/
def run (d : LFrame) : Report :=
  val_results_transform d (rules0.map (fun f => f d))

/-- RuleEngine.run at the call boundary (esdc.run_validation passes the
query result straight in, which may be None): run installs no guard and
catches nothing, and every rule immediately subscripts the frame, so a
None dataset raises a TypeError inside the first rule and the exception
propagates out of run. -/
def runOpt : Option LFrame → Except String Report
  | none => Except.error "TypeError: NoneType object is not subscriptable"
  | some d => Except.ok (run d)

/-- The list comprehension in run that calls the registered rules in order,
with rule bodies abstracted as fallible callables: the first rule that
raises aborts the comprehension and its exception propagates (run has no
try/except around it). -/
def collectResults (rules : List (LFrame → Except String RuleResult))
    (d : LFrame) : Except String (List RuleResult) :=
  match rules with
  | [] => Except.ok []
  | f :: fs =>
    match f d with
    | Except.error e => Except.error e
    | Except.ok r =>
      match collectResults fs d with
      | Except.error e => Except.error e
      | Except.ok rs => Except.ok (r :: rs)

/-- RuleEngine.run with fallible rules: collect all results (propagating
the first exception uncaught), then val_results_transform.  No rule is skipped and no
partial report is produced. -/
def runE (rules : List (LFrame → Except String RuleResult)) (d : LFrame) :
    Except String Report :=
  match collectResults rules d with
  | Except.error e => Except.error e
  | Except.ok results => Except.ok (val_results_transform d results)

/-- A registered rule as a state transformer on the shared frame: the call
returns its result together with the frame object as the rule leaves it.
Every rule body in re0.py only reads the shared frame: the bound rules
filter and compare (both allocate new objects), and the ladder rules rebind
a local name to the result of merge, which also allocates a new frame and
never writes through to its argument.  Hence each call leaves the shared
frame exactly as it found it. -/
def statefulRule (f : LFrame → RuleResult) : LFrame → RuleResult × LFrame :=
  fun d => (f d, d)

/-- RuleEngine.run with the shared frame threaded through the rule calls
and the val_results_transform: each rule call reads the current shared frame and
leaves its possibly updated version for the next; the val_results_transform copies the
frame before writing (line 78 of validate.py), so its in-place loop and
dropna calls mutate only the copy and the shared frame passes through. -/
def runS (d : LFrame) : Report × LFrame :=
  let step := fun (acc : List RuleResult × LFrame) (f : LFrame → RuleResult × LFrame) =>
    let fr := f acc.2
    (acc.1 ++ [fr.1], fr.2)
  let collected := (rules0.map statefulRule).foldl step ([], d)
  (val_results_transform collected.2 collected.1, collected.2)

/-- A low-rung example row with a null rec_oil and benign values elsewhere. -/
def exLowNull : Row :=
  { report_year := 2024, wk_name := "WK", field_id := "F1", field_name := "FLD",
    project_id := "P1", project_name := "PRJ", uncert_lvl := "1. Low Value",
    rec_oil := none, rec_con := some 1, rec_ga := some 1, rec_gn := some 1,
    res_oil := some 1, res_con := some 1, res_ga := some 1, res_gn := some 1,
    prj_ioip := none, prj_igip := none }

/-- A low-rung example row with rec_oil 5 and no middle-rung companion. -/
def exLowFive : Row := { exLowNull with rec_oil := some 5 }

/-- A low-rung example row with rec_oil negative 5. -/
def exLowNeg : Row := { exLowNull with rec_oil := some (-5) }

/-- A middle-rung companion of exLowNeg with rec_oil 10 (same project and
year). -/
def exMidTen : Row := { exLowNull with uncert_lvl := "2. Middle Value", rec_oil := some 10 }

/-- The joined comparison value a left row receives from the merge: the
value of the first (under the dataset invariant, only) lookup entry whose
key matches, or none (NaN fill) when no entry matches. -/
def lookupVal (lk : List ((String × Int) × Option Rat)) (k : String × Int) :
    Option Rat :=
  match lk.filter (fun e => e.1 == k) with
  | [] => none
  | e :: _ => e.2

/-- The comparison-rung value the merge of a ladder rule attaches to row r
of frame d. -/
def rungValue (lvl : String) (getv : Row → Option Rat) (d : LFrame)
    (r : Row) : Option Rat :=
  lookupVal (rungLookup lvl getv (d.map Prod.snd)) (keyOf r)

/-- The frame carries the default RangeIndex 0..n-1, as a frame fresh from
read_sql_query does. -/
def defaultLabels (d : LFrame) : Prop :=
  d.map Prod.fst = List.range d.length

/-- The dataset invariant: at most one row per
(project_id, report_year, uncert_lvl) triple. -/
def uniqTriple (rows : List Row) : Prop :=
  rows.Pairwise (fun a b =>
    (a.project_id, a.report_year, a.uncert_lvl) ≠
      (b.project_id, b.report_year, b.uncert_lvl))

/-! Lemmas about the bound rules. -/

theorem boundInvalid_mem (getv : Row → Option Rat) (d : LFrame) (lab : Nat)
    (b : Bool) :
    (lab, b) ∈ boundInvalid getv d ↔
      ∃ r, (lab, r) ∈ d ∧ r.uncert_lvl = "1. Low Value" ∧
        b = ! geZero (getv r) := by
  simp only [boundInvalid, List.mem_map, List.mem_filter, beq_iff_eq,
    Prod.ext_iff]
  constructor
  · rintro ⟨⟨l, r⟩, ⟨hmem, hlvl⟩, hl, hb⟩
    exact ⟨r, by simpa [← hl] using hmem, hlvl, hb.symm⟩
  · rintro ⟨r, hmem, hlvl, hb⟩
    exact ⟨(lab, r), ⟨hmem, hlvl⟩, rfl, hb.symm⟩

theorem not_geZero_iff (x : Option Rat) :
    ((! geZero x) = true) ↔ (x = none ∨ ∃ q, x = some q ∧ q < 0) := by
  cases x with
  | none => simp [geZero]
  | some q => simp [geZero, not_le]

theorem nodup_labels_inj {d : LFrame} (hnd : (d.map Prod.fst).Nodup)
    {lab : Nat} {r1 r2 : Row} (h1 : (lab, r1) ∈ d) (h2 : (lab, r2) ∈ d) :
    r1 = r2 := by
  induction d with
  | nil => cases h1
  | cons a t ih =>
    simp only [List.map_cons, List.nodup_cons] at hnd
    rcases List.mem_cons.mp h1 with ha1 | ht1
    · rcases List.mem_cons.mp h2 with ha2 | ht2
      · rw [← ha1] at ha2
        exact (Prod.ext_iff.mp ha2).2.symm
      · exfalso
        apply hnd.1
        rw [← ha1]
        exact List.mem_map.mpr ⟨(lab, r2), ht2, rfl⟩
    · rcases List.mem_cons.mp h2 with ha2 | ht2
      · exfalso
        apply hnd.1
        rw [← ha2]
        exact List.mem_map.mpr ⟨(lab, r1), ht1, rfl⟩
      · exact ih hnd.2 ht1 ht2

theorem bound_rule_mask_iff (getv : Row → Option Rat) (d : LFrame)
    (hnd : (d.map Prod.fst).Nodup) (lab : Nat) (r : Row)
    (hmem : (lab, r) ∈ d) (hlow : r.uncert_lvl = "1. Low Value") :
    ((lab, true) ∈ boundInvalid getv d ↔
      (getv r = none ∨ ∃ q, getv r = some q ∧ q < 0)) := by
  rw [boundInvalid_mem]
  constructor
  · rintro ⟨r2, hmem2, _, hb⟩
    have hr : r2 = r := nodup_labels_inj hnd hmem2 hmem
    subst hr
    exact (not_geZero_iff _).mp hb.symm
  · intro h
    exact ⟨r, hmem, hlow, ((not_geZero_iff _).mpr h).symm⟩

/-- Claim C1, counterexample: a dataset with a single low-rung row whose
rec_oil is null.  The claim says the mask of re0007 must be False at that
row (nulls never produce a violation); the code computes the negation of a
NaN comparison, which is True, so the null row is flagged. -/
theorem C1_counterexample :
    exLowNull.uncert_lvl = "1. Low Value" ∧ exLowNull.rec_oil = none ∧
      (re0007 [(0, exLowNull)]).invalid = [(0, true)] := by
  refine ⟨rfl, rfl, ?_⟩
  decide

/-- Claim C1 (amended): for every dataset with distinct row labels and
every bound rule re0007..re0014, at a row with uncert_lvl 1. Low Value the
mask entry carrying that row label is True exactly when the checked column
holds a null OR a non-null value strictly below 0; in particular a null is
flagged as a violation (the code negates a NaN comparison), while a
non-null value at or above 0 is not flagged; no exception is raised. -/
theorem bound_rules_mask_spec (d : LFrame) (hnd : (d.map Prod.fst).Nodup)
    (lab : Nat) (r : Row) (hmem : (lab, r) ∈ d)
    (hlow : r.uncert_lvl = "1. Low Value") :
    (((lab, true) ∈ (re0007 d).invalid) ↔
      (r.rec_oil = none ∨ ∃ q, r.rec_oil = some q ∧ q < 0)) ∧
    (((lab, true) ∈ (re0008 d).invalid) ↔
      (r.rec_con = none ∨ ∃ q, r.rec_con = some q ∧ q < 0)) ∧
    (((lab, true) ∈ (re0009 d).invalid) ↔
      (r.rec_ga = none ∨ ∃ q, r.rec_ga = some q ∧ q < 0)) ∧
    (((lab, true) ∈ (re0010 d).invalid) ↔
      (r.rec_gn = none ∨ ∃ q, r.rec_gn = some q ∧ q < 0)) ∧
    (((lab, true) ∈ (re0011 d).invalid) ↔
      (r.res_oil = none ∨ ∃ q, r.res_oil = some q ∧ q < 0)) ∧
    (((lab, true) ∈ (re0012 d).invalid) ↔
      (r.res_con = none ∨ ∃ q, r.res_con = some q ∧ q < 0)) ∧
    (((lab, true) ∈ (re0013 d).invalid) ↔
      (r.res_ga = none ∨ ∃ q, r.res_ga = some q ∧ q < 0)) ∧
    (((lab, true) ∈ (re0014 d).invalid) ↔
      (r.res_gn = none ∨ ∃ q, r.res_gn = some q ∧ q < 0)) := by
  exact ⟨bound_rule_mask_iff _ d hnd lab r hmem hlow,
    bound_rule_mask_iff _ d hnd lab r hmem hlow,
    bound_rule_mask_iff _ d hnd lab r hmem hlow,
    bound_rule_mask_iff _ d hnd lab r hmem hlow,
    bound_rule_mask_iff _ d hnd lab r hmem hlow,
    bound_rule_mask_iff _ d hnd lab r hmem hlow,
    bound_rule_mask_iff _ d hnd lab r hmem hlow,
    bound_rule_mask_iff _ d hnd lab r hmem hlow⟩

/-- Claim C1, witness: the amended theorem applied to a concrete one-row
dataset whose low-rung rec_oil is negative 5, concluding the row is
flagged by re0007. -/
theorem bound_rules_mask_spec_witness :
    (0, true) ∈ (re0007 [(0, exLowNeg)]).invalid := by
  have h := bound_rules_mask_spec [(0, exLowNeg)] (by decide) 0 exLowNeg
    (by simp) rfl
  exact h.1.mpr (Or.inr ⟨-5, rfl, by norm_num⟩)

/-! Lemmas about the ladder rules. -/

theorem rungLookup_keys_pairwise (lvl : String) (getv : Row → Option Rat)
    (rows : List Row) (h : uniqTriple rows) :
    (rungLookup lvl getv rows).Pairwise (fun a b => a.1 ≠ b.1) := by
  have h1 : (rows.filter (fun r => r.uncert_lvl == lvl)).Pairwise
      (fun a b => (a.project_id, a.report_year, a.uncert_lvl) ≠
        (b.project_id, b.report_year, b.uncert_lvl)) := h.filter _
  have h2 : (rows.filter (fun r => r.uncert_lvl == lvl)).Pairwise
      (fun a b => keyOf a ≠ keyOf b) := by
    refine List.Pairwise.imp_of_mem ?_ h1
    intro a b ha hb hne hk
    have hla : a.uncert_lvl = lvl := by
      simpa using (List.mem_filter.mp ha).2
    have hlb : b.uncert_lvl = lvl := by
      simpa using (List.mem_filter.mp hb).2
    apply hne
    have hk1 : a.project_id = b.project_id := congrArg Prod.fst hk
    have hk2 : a.report_year = b.report_year := congrArg Prod.snd hk
    rw [hk1, hk2, hla, hlb]
  exact List.Pairwise.map _ (fun a b hab => by simpa using hab) h2

theorem filter_key_short {α : Type} (lk : List ((String × Int) × α))
    (k : String × Int) (h : lk.Pairwise (fun a b => a.1 ≠ b.1)) :
    (lk.filter (fun e => e.1 == k)).length ≤ 1 := by
  induction lk with
  | nil => simp
  | cons a t ih =>
    rcases List.pairwise_cons.mp h with ⟨ha, ht⟩
    by_cases hk : a.1 = k
    · have hnil : t.filter (fun e => e.1 == k) = [] := by
        apply List.filter_eq_nil_iff.mpr
        intro e he
        simp only [beq_iff_eq]
        intro hek
        exact ha e he (hk.trans hek.symm)
      simp [List.filter_cons, hk, hnil]
    · simp only [List.filter_cons, beq_iff_eq, hk, if_false]
      exact ih ht

theorem leftJoin_eq_map (rows : List Row)
    (lk : List ((String × Int) × Option Rat))
    (h : ∀ k, (lk.filter (fun e => e.1 == k)).length ≤ 1) :
    leftJoin rows lk = rows.map (fun r => (r, lookupVal lk (keyOf r))) := by
  unfold leftJoin
  induction rows with
  | nil => rfl
  | cons r t ih =>
    rw [List.flatMap_cons, List.map_cons, ih]
    cases hf : lk.filter (fun e => e.1 == keyOf r) with
    | nil =>
      simp [joinMatches, hf, lookupVal]
    | cons e rest =>
      have hlen := h (keyOf r)
      rw [hf] at hlen
      have hrest : rest = [] := by
        cases rest with
        | nil => rfl
        | cons x xs => simp at hlen
      subst hrest
      simp [joinMatches, hf, lookupVal]

theorem ladderInvalid_mem (baseLvl cmpLvl : String)
    (getv : Row → Option Rat) (d : LFrame)
    (huniq : uniqTriple (d.map Prod.snd)) (i : Nat) (b : Bool) :
    ((i, b) ∈ ladderInvalid baseLvl cmpLvl getv d ↔
      ∃ r, (d.map Prod.snd)[i]? = some r ∧ r.uncert_lvl = baseLvl ∧
        b = ! leOpt (getv r) (rungValue cmpLvl getv d r)) := by
  have hj := leftJoin_eq_map (d.map Prod.snd)
    (rungLookup cmpLvl getv (d.map Prod.snd))
    (fun k => filter_key_short _ k
      (rungLookup_keys_pairwise cmpLvl getv _ huniq))
  have henum : ((d.map Prod.snd).map
      (fun r => (r, lookupVal (rungLookup cmpLvl getv (d.map Prod.snd)) (keyOf r)))).enum
      = (d.map Prod.snd).enum.map
        (fun p => (p.1, (p.2, lookupVal (rungLookup cmpLvl getv (d.map Prod.snd)) (keyOf p.2)))) := by
    simp [List.enum_eq_zip_range, List.zip_map_right]
  simp only [ladderInvalid]
  rw [hj, henum, List.filter_map, List.map_map]
  simp only [List.mem_map, List.mem_filter, List.mem_enum_iff_getElem?,
    beq_iff_eq, rungValue, Function.comp]
  constructor
  · rintro ⟨⟨j, rv⟩, ⟨hget, hlvl⟩, heq⟩
    rw [Prod.mk.injEq] at heq
    refine ⟨rv, ?_, hlvl, heq.2.symm⟩
    rw [← heq.1]
    exact hget
  · rintro ⟨r, hget, hlvl, hb⟩
    refine ⟨(i, r), ⟨hget, hlvl⟩, ?_⟩
    rw [Prod.mk.injEq]
    exact ⟨rfl, hb.symm⟩

theorem defaultLabels_mem_iff (d : LFrame) (hlab : defaultLabels d)
    (lab : Nat) (r : Row) :
    ((lab, r) ∈ d ↔ (d.map Prod.snd)[lab]? = some r) := by
  constructor
  · intro hmem
    rcases List.mem_iff_getElem.mp hmem with ⟨j, hjlt, hj⟩
    have hfst : (d.map Prod.fst)[j]? = some lab := by
      rw [List.getElem?_map, List.getElem?_eq_getElem hjlt, hj]
      rfl
    have hjlab : j = lab := by
      rw [hlab] at hfst
      simp [List.getElem?_range, hjlt] at hfst
      exact hfst
    subst hjlab
    rw [List.getElem?_map, List.getElem?_eq_getElem hjlt, hj]
    rfl
  · intro hget
    have hlt : lab < d.length := by
      by_contra hge
      rw [List.getElem?_eq_none] at hget
      · simp at hget
      · simp only [List.length_map]
        omega
    have hsnd : d[lab].2 = r := by
      rw [List.getElem?_map, List.getElem?_eq_getElem hlt] at hget
      simpa using hget
    have hfst : d[lab].1 = lab := by
      have h1 : (d.map Prod.fst)[lab]? = some d[lab].1 := by
        rw [List.getElem?_map, List.getElem?_eq_getElem hlt]
        rfl
      rw [hlab] at h1
      simp [List.getElem?_range, hlt] at h1
      exact h1.symm
    have hlr : d[lab] = (lab, r) := by
      rcases hd : d[lab] with ⟨a, b⟩
      rw [hd] at hfst hsnd
      simp only at hfst hsnd
      rw [hfst, hsnd]
    rw [← hlr]
    exact List.getElem_mem hlt

theorem leOpt_iff (x y : Option Rat) :
    (leOpt x y = true) ↔ (∃ a c, x = some a ∧ y = some c ∧ a ≤ c) := by
  cases x with
  | none => cases y <;> simp [leOpt]
  | some a =>
    cases y with
    | none => simp [leOpt]
    | some c => simp [leOpt]

theorem ladder_rule_mask_iff (baseLvl cmpLvl : String)
    (getv : Row → Option Rat) (d : LFrame) (hlab : defaultLabels d)
    (huniq : uniqTriple (d.map Prod.snd)) (lab : Nat) (r : Row)
    (hmem : (lab, r) ∈ d) (hbase : r.uncert_lvl = baseLvl) :
    ((lab, true) ∈ ladderInvalid baseLvl cmpLvl getv d ↔
      ¬ ∃ a c, getv r = some a ∧ rungValue cmpLvl getv d r = some c ∧ a ≤ c) := by
  rw [ladderInvalid_mem baseLvl cmpLvl getv d huniq]
  have hget := (defaultLabels_mem_iff d hlab lab r).mp hmem
  constructor
  · rintro ⟨r2, hget2, _, hb⟩
    have hr : r2 = r := by
      rw [hget] at hget2
      exact (Option.some.inj hget2).symm
    subst hr
    rw [← leOpt_iff]
    intro hle
    rw [hle] at hb
    simp at hb
  · intro h
    refine ⟨r, hget, hbase, ?_⟩
    rw [← leOpt_iff] at h
    have hfalse : leOpt (getv r) (rungValue cmpLvl getv d r) = false := by
      cases hcase : leOpt (getv r) (rungValue cmpLvl getv d r) with
      | false => rfl
      | true => exact absurd hcase h
    rw [hfalse]
    rfl

theorem ladder_mask_entry_row (baseLvl cmpLvl : String)
    (getv : Row → Option Rat) (d : LFrame) (hlab : defaultLabels d)
    (huniq : uniqTriple (d.map Prod.snd)) (i : Nat) (b : Bool)
    (hmem : (i, b) ∈ ladderInvalid baseLvl cmpLvl getv d) :
    ∃ r, (i, r) ∈ d ∧ r.uncert_lvl = baseLvl ∧
      b = ! leOpt (getv r) (rungValue cmpLvl getv d r) := by
  rcases (ladderInvalid_mem baseLvl cmpLvl getv d huniq i b).mp hmem with
    ⟨r, hget, hlvl, hb⟩
  exact ⟨r, (defaultLabels_mem_iff d hlab i r).mpr hget, hlvl, hb⟩

/-- A low-rung example row with rec_oil 15 (the spec section 8 scenario). -/
def exLow15 : Row := { exLowNull with rec_oil := some 15 }

/-- Claim C2, counterexample: a dataset holding a single low-rung row for
project P1 year 2024 with rec_oil 5 and no middle-rung row at all.  The
claim says the re0015 mask at the base-rung row must be False when the
comparison rung is absent (vacuous pass); the code left-merges a NaN fill
and negates a NaN comparison, so the row is flagged True. -/
theorem C2_counterexample :
    exLowFive.uncert_lvl = "1. Low Value" ∧
    ([(0, exLowFive)].map Prod.snd).filter
        (fun r => r.uncert_lvl == "2. Middle Value") = [] ∧
    (re0015 [(0, exLowFive)]).invalid = [(0, true)] := by
  refine ⟨rfl, ?_, ?_⟩ <;> decide

/-- Claim C2 (amended): for every dataset with the default RangeIndex and
at most one row per (project_id, report_year, uncert_lvl), and every
ladder rule re0015..re0022: the mask entry at the base-rung row is True
exactly when it is NOT the case that the base value and the joined
comparison-rung value are both non-null with base below or equal to the
comparison; in particular with both rungs present and non-null values the
mask is True iff base exceeds comparison, but when the comparison rung is
absent for that (project_id, report_year) group (or either value is null)
the mask at the base-rung row is True, not False; no exception is
raised. -/
theorem ladder_rules_mask_spec (d : LFrame) (hlab : defaultLabels d)
    (huniq : uniqTriple (d.map Prod.snd)) (lab : Nat) (r : Row)
    (hmem : (lab, r) ∈ d) :
    (r.uncert_lvl = "1. Low Value" →
      (((lab, true) ∈ (re0015 d).invalid) ↔
        ¬ ∃ a c, r.rec_oil = some a ∧
          rungValue "2. Middle Value" (fun x => x.rec_oil) d r = some c ∧ a ≤ c)) ∧
    (r.uncert_lvl = "2. Middle Value" →
      (((lab, true) ∈ (re0016 d).invalid) ↔
        ¬ ∃ a c, r.rec_oil = some a ∧
          rungValue "3. High Value" (fun x => x.rec_oil) d r = some c ∧ a ≤ c)) ∧
    (r.uncert_lvl = "1. Low Value" →
      (((lab, true) ∈ (re0017 d).invalid) ↔
        ¬ ∃ a c, r.rec_con = some a ∧
          rungValue "2. Middle Value" (fun x => x.rec_con) d r = some c ∧ a ≤ c)) ∧
    (r.uncert_lvl = "2. Middle Value" →
      (((lab, true) ∈ (re0018 d).invalid) ↔
        ¬ ∃ a c, r.rec_con = some a ∧
          rungValue "3. High Value" (fun x => x.rec_con) d r = some c ∧ a ≤ c)) ∧
    (r.uncert_lvl = "1. Low Value" →
      (((lab, true) ∈ (re0019 d).invalid) ↔
        ¬ ∃ a c, r.rec_ga = some a ∧
          rungValue "2. Middle Value" (fun x => x.rec_ga) d r = some c ∧ a ≤ c)) ∧
    (r.uncert_lvl = "2. Middle Value" →
      (((lab, true) ∈ (re0020 d).invalid) ↔
        ¬ ∃ a c, r.rec_ga = some a ∧
          rungValue "3. High Value" (fun x => x.rec_ga) d r = some c ∧ a ≤ c)) ∧
    (r.uncert_lvl = "1. Low Value" →
      (((lab, true) ∈ (re0021 d).invalid) ↔
        ¬ ∃ a c, r.rec_gn = some a ∧
          rungValue "2. Middle Value" (fun x => x.rec_gn) d r = some c ∧ a ≤ c)) ∧
    (r.uncert_lvl = "2. Middle Value" →
      (((lab, true) ∈ (re0022 d).invalid) ↔
        ¬ ∃ a c, r.rec_gn = some a ∧
          rungValue "3. High Value" (fun x => x.rec_gn) d r = some c ∧ a ≤ c)) := by
  exact ⟨fun hb => ladder_rule_mask_iff _ _ _ d hlab huniq lab r hmem hb,
    fun hb => ladder_rule_mask_iff _ _ _ d hlab huniq lab r hmem hb,
    fun hb => ladder_rule_mask_iff _ _ _ d hlab huniq lab r hmem hb,
    fun hb => ladder_rule_mask_iff _ _ _ d hlab huniq lab r hmem hb,
    fun hb => ladder_rule_mask_iff _ _ _ d hlab huniq lab r hmem hb,
    fun hb => ladder_rule_mask_iff _ _ _ d hlab huniq lab r hmem hb,
    fun hb => ladder_rule_mask_iff _ _ _ d hlab huniq lab r hmem hb,
    fun hb => ladder_rule_mask_iff _ _ _ d hlab huniq lab r hmem hb⟩

/-- Claim C2, witness: the amended theorem applied to the spec section 8
scenario, a two-row dataset with low rec_oil 15 and middle rec_oil 10 for
the same project and year: the low-rung row is flagged by re0015. -/
theorem ladder_rules_mask_spec_witness :
    (0, true) ∈ (re0015 [(0, exLow15), (1, exMidTen)]).invalid := by
  have h := ladder_rules_mask_spec [(0, exLow15), (1, exMidTen)]
    (by unfold defaultLabels; decide) (by unfold uniqTriple; decide) 0 exLow15
    (by simp)
  apply (h.1 rfl).mpr
  rintro ⟨a, c, ha, hc, hle⟩
  have hv : rungValue "2. Middle Value" (fun x => x.rec_oil)
      [(0, exLow15), (1, exMidTen)] exLow15 = some 10 := by decide
  rw [hv] at hc
  have ha2 : a = 15 := by
    have : (some (15 : Rat)) = some a := ha
    exact (Option.some.inj this).symm
  have hc2 : c = 10 := (Option.some.inj hc).symm
  rw [ha2, hc2] at hle
  norm_num at hle

/-- Claim C6: for every dataset carrying the default RangeIndex 0..n-1
with at most one row per (project_id, report_year, uncert_lvl) triple, the
mask each ladder rule returns is indexed by fresh positions of the merged
frame, and an entry at position i addresses row i of the input dataset:
every mask entry (i, b) corresponds to the input row labelled i, which is
a base-rung row, and b is the negated ladder comparison computed from that
row and its joined comparison-rung value. -/
theorem ladder_mask_positional_alignment (d : LFrame)
    (hlab : defaultLabels d) (huniq : uniqTriple (d.map Prod.snd))
    (i : Nat) (b : Bool) :
    (((i, b) ∈ (re0015 d).invalid) → ∃ r, (i, r) ∈ d ∧
      r.uncert_lvl = "1. Low Value" ∧
      b = ! leOpt r.rec_oil (rungValue "2. Middle Value" (fun x => x.rec_oil) d r)) ∧
    (((i, b) ∈ (re0016 d).invalid) → ∃ r, (i, r) ∈ d ∧
      r.uncert_lvl = "2. Middle Value" ∧
      b = ! leOpt r.rec_oil (rungValue "3. High Value" (fun x => x.rec_oil) d r)) ∧
    (((i, b) ∈ (re0017 d).invalid) → ∃ r, (i, r) ∈ d ∧
      r.uncert_lvl = "1. Low Value" ∧
      b = ! leOpt r.rec_con (rungValue "2. Middle Value" (fun x => x.rec_con) d r)) ∧
    (((i, b) ∈ (re0018 d).invalid) → ∃ r, (i, r) ∈ d ∧
      r.uncert_lvl = "2. Middle Value" ∧
      b = ! leOpt r.rec_con (rungValue "3. High Value" (fun x => x.rec_con) d r)) ∧
    (((i, b) ∈ (re0019 d).invalid) → ∃ r, (i, r) ∈ d ∧
      r.uncert_lvl = "1. Low Value" ∧
      b = ! leOpt r.rec_ga (rungValue "2. Middle Value" (fun x => x.rec_ga) d r)) ∧
    (((i, b) ∈ (re0020 d).invalid) → ∃ r, (i, r) ∈ d ∧
      r.uncert_lvl = "2. Middle Value" ∧
      b = ! leOpt r.rec_ga (rungValue "3. High Value" (fun x => x.rec_ga) d r)) ∧
    (((i, b) ∈ (re0021 d).invalid) → ∃ r, (i, r) ∈ d ∧
      r.uncert_lvl = "1. Low Value" ∧
      b = ! leOpt r.rec_gn (rungValue "2. Middle Value" (fun x => x.rec_gn) d r)) ∧
    (((i, b) ∈ (re0022 d).invalid) → ∃ r, (i, r) ∈ d ∧
      r.uncert_lvl = "2. Middle Value" ∧
      b = ! leOpt r.rec_gn (rungValue "3. High Value" (fun x => x.rec_gn) d r)) := by
  exact ⟨fun hm => ladder_mask_entry_row _ _ _ d hlab huniq i b hm,
    fun hm => ladder_mask_entry_row _ _ _ d hlab huniq i b hm,
    fun hm => ladder_mask_entry_row _ _ _ d hlab huniq i b hm,
    fun hm => ladder_mask_entry_row _ _ _ d hlab huniq i b hm,
    fun hm => ladder_mask_entry_row _ _ _ d hlab huniq i b hm,
    fun hm => ladder_mask_entry_row _ _ _ d hlab huniq i b hm,
    fun hm => ladder_mask_entry_row _ _ _ d hlab huniq i b hm,
    fun hm => ladder_mask_entry_row _ _ _ d hlab huniq i b hm⟩

/-- Claim C6, witness: the alignment theorem applied to a concrete two-row
dataset (low rec_oil negative 5, middle rec_oil 10): the re0015 mask entry
at position 0 is False and addresses input row 0, the low-rung row. -/
theorem ladder_mask_positional_alignment_witness :
    ∃ r, (0, r) ∈ [(0, exLowNeg), (1, exMidTen)] ∧
      r.uncert_lvl = "1. Low Value" ∧
      (false : Bool) = ! leOpt r.rec_oil
        (rungValue "2. Middle Value" (fun x => x.rec_oil)
          [(0, exLowNeg), (1, exMidTen)] r) := by
  have h := ladder_mask_positional_alignment [(0, exLowNeg), (1, exMidTen)]
    (by unfold defaultLabels; decide) (by unfold uniqTriple; decide) 0 false
  exact h.1 (by decide)

/-! Lemmas about the result aggregator. -/

/-- The string one firing rule appends to a report cell: the upper-cased
rule id followed by the semicolon separator. -/
def tagOf (res : RuleResult) : String := pyUpper res.rule_id ++ ";"

/-- Does a rule result fire on the cell (row label, column)? -/
def firesAt (res : RuleResult) (lab : Nat) (c : Col) : Bool :=
  decide (res.column = c) && decide ((lab, true) ∈ res.invalid)

/-- The full string the accumulation loop leaves in the cell
(row label, column): the tags of the firing results, concatenated in
result-list order. -/
def tagString (results : List RuleResult) (lab : Nat) (c : Col) : String :=
  match results with
  | [] => ""
  | res :: rest =>
    (if firesAt res lab c then tagOf res else "") ++ tagString rest lab c

/-- Append to every cell of a report row the tags of the results firing on
it. -/
def addTags (vr : VRow) (lab : Nat) (results : List RuleResult) : VRow :=
  { report_year := vr.report_year ++ tagString results lab Col.report_year
    wk_name := vr.wk_name ++ tagString results lab Col.wk_name
    field_id := vr.field_id ++ tagString results lab Col.field_id
    field_name := vr.field_name ++ tagString results lab Col.field_name
    project_id := vr.project_id ++ tagString results lab Col.project_id
    project_name := vr.project_name ++ tagString results lab Col.project_name
    uncert_lvl := vr.uncert_lvl ++ tagString results lab Col.uncert_lvl
    rec_oil := vr.rec_oil ++ tagString results lab Col.rec_oil
    rec_con := vr.rec_con ++ tagString results lab Col.rec_con
    rec_ga := vr.rec_ga ++ tagString results lab Col.rec_ga
    rec_gn := vr.rec_gn ++ tagString results lab Col.rec_gn
    res_oil := vr.res_oil ++ tagString results lab Col.res_oil
    res_con := vr.res_con ++ tagString results lab Col.res_con
    res_ga := vr.res_ga ++ tagString results lab Col.res_ga
    res_gn := vr.res_gn ++ tagString results lab Col.res_gn
    prj_ioip := vr.prj_ioip ++ tagString results lab Col.prj_ioip
    prj_igip := vr.prj_igip ++ tagString results lab Col.prj_igip }

theorem addTags_get (vr : VRow) (lab : Nat) (results : List RuleResult)
    (c : Col) :
    (addTags vr lab results).get c = vr.get c ++ tagString results lab c := by
  cases c <;> rfl

theorem addTags_nil (vr : VRow) (lab : Nat) : addTags vr lab [] = vr := by
  simp [addTags, tagString]

theorem VRow.ext_get (v w : VRow) (h : ∀ c, v.get c = w.get c) : v = w := by
  cases v
  cases w
  simp only [VRow.mk.injEq]
  exact ⟨h Col.report_year, h Col.wk_name, h Col.field_id, h Col.field_name,
    h Col.project_id, h Col.project_name, h Col.uncert_lvl, h Col.rec_oil,
    h Col.rec_con, h Col.rec_ga, h Col.rec_gn, h Col.res_oil, h Col.res_con,
    h Col.res_ga, h Col.res_gn, h Col.prj_ioip, h Col.prj_igip⟩

theorem VRow.get_set (v : VRow) (c c2 : Col) (s : String) :
    (v.set c s).get c2 = if c = c2 then s else v.get c2 := by
  cases c <;> cases c2 <;> rfl

theorem contains_idx_iff (m : Mask) (lab : Nat) :
    (((m.filter (fun e => e.2)).map (fun e => e.1)).contains lab = true) ↔
      ((lab, true) ∈ m) := by
  rw [List.elem_iff]
  simp only [List.mem_map, List.mem_filter]
  constructor
  · rintro ⟨⟨l, b⟩, ⟨hm, hb⟩, hl⟩
    simp only at hb hl
    rw [← hl]
    cases b with
    | false => cases hb
    | true => exact hm
  · intro hm
    exact ⟨(lab, true), ⟨hm, rfl⟩, rfl⟩

theorem tagString_single (res : RuleResult) (lab : Nat) (c : Col) :
    tagString [res] lab c = (if firesAt res lab c then tagOf res else "") := by
  simp [tagString]

theorem addTags_single_not_fired (vr : VRow) (lab : Nat) (res : RuleResult)
    (h : (lab, true) ∉ res.invalid) : addTags vr lab [res] = vr := by
  apply VRow.ext_get
  intro c
  rw [addTags_get, tagString_single]
  simp [firesAt, h]

theorem applyResult_eq_map (vv : List (Nat × VRow)) (res : RuleResult) :
    applyResult vv res = vv.map (fun p => (p.1, addTags p.2 p.1 [res])) := by
  unfold applyResult
  by_cases hany : res.invalid.any (fun e => e.2) = true
  · simp only [hany, if_true]
    apply List.map_congr_left
    intro p _
    by_cases hc : (((res.invalid.filter (fun e => e.2)).map (fun e => e.1)).contains p.1) = true
    · have hmem : (p.1, true) ∈ res.invalid := (contains_idx_iff _ _).mp hc
      rw [if_pos hc]
      refine Prod.ext rfl ?_
      apply VRow.ext_get
      intro c
      rw [VRow.get_set, addTags_get, tagString_single]
      by_cases hcc : res.column = c
      · subst hcc
        simp [firesAt, hmem, tagOf]
      · simp [firesAt, hcc]
    · have hmem : (p.1, true) ∉ res.invalid := fun hm =>
        hc ((contains_idx_iff _ _).mpr hm)
      rw [if_neg hc, addTags_single_not_fired p.2 p.1 res hmem]
  · simp only [hany, if_false]
    have hmem : ∀ lab, (lab, true) ∉ res.invalid := by
      intro lab hm
      apply hany
      rw [List.any_eq_true]
      exact ⟨(lab, true), hm, rfl⟩
    conv_rhs => rw [show (fun p : Nat × VRow => (p.1, addTags p.2 p.1 [res]))
      = (fun p => (p.1, p.2)) from funext (fun p => by
        rw [addTags_single_not_fired p.2 p.1 res (hmem p.1)])]
    simp

theorem tagString_append (r1 r2 : List RuleResult) (lab : Nat) (c : Col) :
    tagString (r1 ++ r2) lab c = tagString r1 lab c ++ tagString r2 lab c := by
  induction r1 with
  | nil => simp [tagString]
  | cons res rest ih =>
    simp only [List.cons_append, tagString, List.append_eq, ih,
      String.append_assoc]

theorem addTags_addTags (vr : VRow) (lab : Nat) (r1 r2 : List RuleResult) :
    addTags (addTags vr lab r1) lab r2 = addTags vr lab (r1 ++ r2) := by
  simp [addTags, tagString_append, String.append_assoc]

theorem foldl_applyResult (results : List RuleResult)
    (vv : List (Nat × VRow)) :
    results.foldl applyResult vv
      = vv.map (fun p => (p.1, addTags p.2 p.1 results)) := by
  induction results generalizing vv with
  | nil =>
    simp only [List.foldl_nil]
    conv_rhs => rw [show (fun p : Nat × VRow => (p.1, addTags p.2 p.1 []))
      = (fun p => (p.1, p.2)) from funext (fun p => by rw [addTags_nil])]
    simp
  | cons res rest ih =>
    rw [List.foldl_cons, ih, applyResult_eq_map, List.map_map]
    apply List.map_congr_left
    intro p _
    simp only [Function.comp]
    rw [addTags_addTags]
    rfl

/-- The val_results_transform with its let bindings unfolded. -/
theorem val_results_transform_eq (d : LFrame) (results : List RuleResult) :
    val_results_transform d results =
      ⟨(results.foldl applyResult (d.map (fun p => (p.1, toVRow p.2)))).filter
          (fun p => ! measuredCols.all (fun c => isAbsent (p.2.get c))),
        volumetric_columns.filter (fun c =>
          ((results.foldl applyResult (d.map (fun p => (p.1, toVRow p.2)))).filter
            (fun p => ! measuredCols.all (fun c2 => isAbsent (p.2.get c2)))).any
              (fun p => ! isAbsent (p.2.get c)))⟩ := rfl

theorem toVRow_measured (c : Col) (hc : c ∈ measuredCols) (r : Row) :
    (toVRow r).get c = "" := by
  fin_cases hc <;> rfl

theorem tagString_split (results : List RuleResult) (res : RuleResult)
    (lab : Nat) (c : Col) (hres : res ∈ results)
    (hfire : firesAt res lab c = true) :
    ∃ pre post, tagString results lab c = pre ++ (tagOf res ++ post) := by
  induction results with
  | nil => cases hres
  | cons hd tl ih =>
    rcases List.mem_cons.mp hres with hhd | htl
    · subst hhd
      refine ⟨"", tagString tl lab c, ?_⟩
      simp [tagString, hfire, String.empty_append]
    · rcases ih htl with ⟨pre, post, hsplit⟩
      refine ⟨(if firesAt hd lab c then tagOf hd else "") ++ pre, post, ?_⟩
      simp [tagString, hsplit, String.append_assoc]

theorem tag_string_ne_empty (pre post : String) (res : RuleResult) :
    pre ++ (tagOf res ++ post) ≠ "" := by
  intro h
  have hlen := congrArg String.length h
  have hsemi : (";" : String).length = 1 := rfl
  have hnil : ("" : String).length = 0 := rfl
  simp only [String.length_append, tagOf, hsemi, hnil] at hlen
  omega

theorem folded_map_fst (d : LFrame) (results : List RuleResult) :
    (results.foldl applyResult (d.map (fun p => (p.1, toVRow p.2)))).map
      Prod.fst = d.map Prod.fst := by
  rw [foldl_applyResult, List.map_map, List.map_map]
  rfl

/-- Claim C3: every True entry of every rule mask is reflected in the
report: the surviving row labelled with the mask entry has, under the rule
declared column, exactly the concatenation (in result-list, i.e.
registry-run, order) of the upper-cased ids plus semicolon of all results
firing on that cell, the fired rule id among them; the row and the column
both survive the pruning, so no True mask entry is lost however many rules
fire on the cell. -/
theorem aggregation_complete (d : LFrame) (results : List RuleResult)
    (res : RuleResult) (i : Nat) (r : Row)
    (hres : res ∈ results) (hcol : res.column ∈ measuredCols)
    (hmask : (i, true) ∈ res.invalid) (hrow : (i, r) ∈ d) :
    ∃ vr, (i, vr) ∈ (val_results_transform d results).rows ∧
      res.column ∈ (val_results_transform d results).cols ∧
      vr.get res.column = tagString results i res.column ∧
      ∃ pre post, vr.get res.column = pre ++ ((pyUpper res.rule_id ++ ";") ++ post) := by
  have hfire : firesAt res i res.column = true := by
    simp [firesAt, hmask]
  have hcell : (addTags (toVRow r) i results).get res.column
      = tagString results i res.column := by
    rw [addTags_get, toVRow_measured res.column hcol, String.empty_append]
  rcases tagString_split results res i res.column hres hfire with
    ⟨pre, post, hsplit⟩
  have hne : (addTags (toVRow r) i results).get res.column ≠ "" := by
    rw [hcell, hsplit]
    exact tag_string_ne_empty pre post res
  have hmemf : (i, addTags (toVRow r) i results) ∈
      (results.foldl applyResult (d.map (fun p => (p.1, toVRow p.2)))) := by
    rw [foldl_applyResult, List.map_map]
    exact List.mem_map.mpr ⟨(i, r), hrow, rfl⟩
  have hpred : (! measuredCols.all
      (fun c => isAbsent ((addTags (toVRow r) i results).get c))) = true := by
    rw [Bool.not_eq_true']
    rw [List.all_eq_false]
    refine ⟨res.column, hcol, ?_⟩
    simp [isAbsent, hne]
  have hrowmem : (i, addTags (toVRow r) i results) ∈ (val_results_transform d results).rows := by
    rw [val_results_transform_eq]
    exact List.mem_filter.mpr ⟨hmemf, hpred⟩
  have hcolmem : res.column ∈ (val_results_transform d results).cols := by
    rw [val_results_transform_eq]
    apply List.mem_filter.mpr
    constructor
    · exact List.drop_subset 7 volumetric_columns hcol
    · rw [List.any_eq_true]
      refine ⟨(i, addTags (toVRow r) i results), ?_, ?_⟩
      · rw [val_results_transform_eq] at hrowmem
        exact hrowmem
      · simp [isAbsent, hne]
  refine ⟨addTags (toVRow r) i results, hrowmem, hcolmem, hcell, pre, post, ?_⟩
  rw [hcell, hsplit]
  rfl

/-- The single rule result used by several concrete witnesses: re0007
firing on row label 0 of column rec_oil. -/
def exResult : RuleResult :=
  ⟨Col.rec_oil, "re0007", Severity.STRICT, [(0, true)]⟩

/-- Claim C3, witness: the aggregation theorem applied to a one-row
dataset and the single result exResult. -/
theorem aggregation_complete_witness :
    ∃ vr, (0, vr) ∈ (val_results_transform [(0, exLowNeg)] [exResult]).rows ∧
      exResult.column ∈ (val_results_transform [(0, exLowNeg)] [exResult]).cols ∧
      vr.get exResult.column = tagString [exResult] 0 exResult.column ∧
      ∃ pre post, vr.get exResult.column =
        pre ++ ((pyUpper exResult.rule_id ++ ";") ++ post) := by
  exact aggregation_complete [(0, exLowNeg)] [exResult] exResult 0 exLowNeg
    (by simp) (by decide) (by decide) (by simp)

/-- Claim C5: the report never contains a row whose measured cells are all
absent, never contains a column (measured or identity) that is absent in
every surviving row, and the surviving rows keep the input frame order
(their labels form a sublist of the input labels). -/
theorem report_pruning (d : LFrame) (results : List RuleResult) :
    (∀ p, p ∈ (val_results_transform d results).rows →
      ∃ c, c ∈ measuredCols ∧ isAbsent (p.2.get c) = false) ∧
    (∀ c, c ∈ (val_results_transform d results).cols →
      ∃ p, p ∈ (val_results_transform d results).rows ∧ isAbsent (p.2.get c) = false) ∧
    ((val_results_transform d results).rows.map Prod.fst).Sublist (d.map Prod.fst) := by
  refine ⟨?_, ?_, ?_⟩
  · intro p hp
    rw [val_results_transform_eq] at hp
    have h2 := (List.mem_filter.mp hp).2
    rw [Bool.not_eq_true', List.all_eq_false] at h2
    rcases h2 with ⟨c, hc, hnc⟩
    exact ⟨c, hc, by simpa using hnc⟩
  · intro c hc
    rw [val_results_transform_eq] at hc
    have h2 := (List.mem_filter.mp hc).2
    rw [List.any_eq_true] at h2
    rcases h2 with ⟨p, hp, hnp⟩
    refine ⟨p, ?_, by simpa using hnp⟩
    rw [val_results_transform_eq]
    exact hp
  · rw [val_results_transform_eq]
    have h1 : ((results.foldl applyResult (d.map (fun p => (p.1, toVRow p.2)))).filter
        (fun p => ! measuredCols.all (fun c2 => isAbsent (p.2.get c2)))).Sublist
        (results.foldl applyResult (d.map (fun p => (p.1, toVRow p.2)))) :=
      List.filter_sublist _
    have h2 := h1.map Prod.fst
    rw [folded_map_fst] at h2
    exact h2

/-- Claim C5, witness: the pruning theorem applied to a concrete one-row
dataset with the single firing result exResult: the surviving row has a
non-absent measured cell. -/
theorem report_pruning_witness :
    ∃ c, c ∈ measuredCols ∧
      isAbsent ((0, addTags (toVRow exLowNeg) 0 [exResult]).2.get c) = false := by
  refine (report_pruning [(0, exLowNeg)] [exResult]).1
    (0, addTags (toVRow exLowNeg) 0 [exResult]) ?_
  rw [val_results_transform_eq]
  apply List.mem_filter.mpr
  constructor
  · rw [foldl_applyResult]
    simp
  · decide

/-- Claim C7, counterexample: a non-empty dataset and an empty result
list.  Every row is pruned (no violations), leaving a zero-row frame, and
dropna over columns on a zero-row frame drops every column: the returned
report has no columns at all, so the identity columns are not present,
contradicting the claim that they always are. -/
theorem C7_counterexample :
    Col.report_year ∈ identityCols ∧
    (val_results_transform [(0, exLowFive)] []).rows = [] ∧
    (val_results_transform [(0, exLowFive)] []).cols = [] := by
  refine ⟨by decide, by decide, by decide⟩

theorem identity_not_measured (c : Col) (h1 : c ∈ identityCols)
    (h2 : c ∈ measuredCols) : False := by
  fin_cases h1 <;> exact absurd h2 (by decide)

theorem tagString_identity (results : List RuleResult) (lab : Nat) (c : Col)
    (hc : c ∈ identityCols)
    (hmc : ∀ res ∈ results, res.column ∈ measuredCols) :
    tagString results lab c = "" := by
  induction results with
  | nil => rfl
  | cons res rest ih =>
    have hne : res.column ≠ c := fun h =>
      identity_not_measured c hc (h ▸ hmc res (List.mem_cons_self res rest))
    have hfire : firesAt res lab c = false := by
      simp [firesAt, hne]
    simp only [tagString, hfire, if_false, String.empty_append]
    exact ih (fun r2 hr2 => hmc r2 (List.mem_cons_of_mem res hr2))

/-- Claim C7 (amended): when every result targets a measured column (as
all registered rules do), the aggregation never alters identity cells:
every surviving report row keeps the stringified identity values of its
source dataset row; and an identity column is retained in the report
whenever some surviving row holds a non-empty string there.  The identity
columns are NOT unconditionally present: with zero surviving rows (or an
identity column whose surviving values are all empty strings) the final
dropna over columns removes them. -/
theorem identity_cols_retained (d : LFrame) (results : List RuleResult)
    (hmc : ∀ res ∈ results, res.column ∈ measuredCols) :
    (∀ p, p ∈ (val_results_transform d results).rows → ∀ c, c ∈ identityCols →
      ∃ r, (p.1, r) ∈ d ∧ p.2.get c = (toVRow r).get c) ∧
    (∀ c, c ∈ identityCols →
      (∃ p, p ∈ (val_results_transform d results).rows ∧ isAbsent (p.2.get c) = false) →
      c ∈ (val_results_transform d results).cols) := by
  constructor
  · intro p hp c hc
    rw [val_results_transform_eq] at hp
    have hmemf := (List.mem_filter.mp hp).1
    rw [foldl_applyResult, List.map_map] at hmemf
    rcases List.mem_map.mp hmemf with ⟨⟨j, r⟩, hjr, hpr⟩
    refine ⟨r, ?_, ?_⟩
    · rw [← hpr]
      exact hjr
    · rw [← hpr]
      simp only [Function.comp]
      rw [addTags_get, tagString_identity results j c hc hmc,
        String.append_empty]
  · intro c hc hex
    rcases hex with ⟨p, hp, hnab⟩
    rw [val_results_transform_eq]
    apply List.mem_filter.mpr
    constructor
    · exact List.take_subset 7 volumetric_columns hc
    · rw [List.any_eq_true]
      refine ⟨p, ?_, by simp [hnab]⟩
      rw [val_results_transform_eq] at hp
      exact hp

/-- Claim C7, witness: the amended theorem applied to a one-row dataset
with the firing result exResult: the surviving row keeps project_id P1,
which is non-empty, so column project_id is retained. -/
theorem identity_cols_retained_witness :
    Col.project_id ∈ (val_results_transform [(0, exLowNeg)] [exResult]).cols := by
  refine (identity_cols_retained [(0, exLowNeg)] [exResult]
    (by intro res hres; simp at hres; rw [hres]; decide)).2
    Col.project_id (by decide)
    ⟨(0, addTags (toVRow exLowNeg) 0 [exResult]), ?_, by decide⟩
  rw [val_results_transform_eq]
  apply List.mem_filter.mpr
  constructor
  · rw [foldl_applyResult]
    simp
  · decide

/-! The executor: empty and None inputs, exception propagation, shared
frame preservation, determinism. -/

/-- Claim C4, counterexample: a None dataset.  The claim says run returns
an empty report immediately without raising; the code has no None or
empty guard, so the first rule subscripts None and the TypeError
propagates out of run. -/
theorem C4_counterexample :
    runOpt none = Except.error
      "TypeError: NoneType object is not subscriptable" := rfl

/-- Claim C4 (amended): on an empty dataset run returns an empty report
(zero rows and, because dropna over columns of a zero-row frame drops
everything, zero columns) without raising, although every registered rule
is still invoked on the empty frame; on a None dataset run does not return
an empty report: the first rule raises and the exception propagates. -/
theorem run_empty_and_none :
    runOpt (some []) = Except.ok ⟨[], []⟩ ∧
    ∃ msg, runOpt none = Except.error msg := by
  exact ⟨rfl, ⟨"TypeError: NoneType object is not subscriptable", rfl⟩⟩

theorem runS_spec (d : LFrame) : runS d = (run d, d) := rfl

/-- Claim C8: after a complete engine run the shared dataset is unchanged:
threading the frame object through all sixteen rule calls and the
val_results_transform returns it exactly as supplied (no rule body and no aggregation
step writes to it; the val_results_transform copies before mutating), and the report
computed along the way is the report of the pure run. -/
theorem run_preserves_dataset (d : LFrame) :
    (runS d).2 = d ∧ (runS d).1 = run d := by
  rw [runS_spec]
  exact ⟨rfl, rfl⟩

/-- Claim C10: running the engine a second time on the dataset left behind
by the first run produces the identical report and state: the run is
deterministic in its input and the first run left the dataset unchanged,
with rule order fixed by the registry. -/
theorem run_deterministic (d : LFrame) : runS ((runS d).2) = runS d := by
  simp [runS_spec]

theorem collectResults_error (rules : List (LFrame → Except String RuleResult))
    (d : LFrame) (f : LFrame → Except String RuleResult) (hf : f ∈ rules)
    (msg : String) (herr : f d = Except.error msg) :
    ∃ m2, collectResults rules d = Except.error m2 := by
  induction rules with
  | nil => cases hf
  | cons g gs ih =>
    rcases List.mem_cons.mp hf with hg | hgs
    · refine ⟨msg, ?_⟩
      rw [hg] at herr
      simp [collectResults, herr]
    · cases hgd : g d with
      | error e => exact ⟨e, by simp [collectResults, hgd]⟩
      | ok r =>
        rcases ih hgs with ⟨m2, hm2⟩
        exact ⟨m2, by simp [collectResults, hgd, hm2]⟩

theorem collectResults_ok (rules : List (LFrame → Except String RuleResult))
    (d : LFrame) (results : List RuleResult)
    (h : collectResults rules d = Except.ok results) :
    ∀ f ∈ rules, ∃ r, f d = Except.ok r := by
  induction rules generalizing results with
  | nil => intro f hf; cases hf
  | cons g gs ih =>
    intro f hf
    cases hgd : g d with
    | error e =>
      rw [collectResults, hgd] at h
      cases h
    | ok r =>
      rw [collectResults, hgd] at h
      cases hrest : collectResults gs d with
      | error e => rw [hrest] at h; cases h
      | ok rs =>
        rw [hrest] at h
        rcases List.mem_cons.mp hf with hg | hgs
        · exact ⟨r, by rw [hg]; exact hgd⟩
        · exact ih rs hrest f hgs

/-- Claim C9: the engine catches nothing.  If any registered rule raises
on the dataset, runE returns that propagated exception (never a report);
and whenever runE returns a report, every registered rule succeeded and
the report is the val_results_transform of the full collected result list: no rule is
skipped and no partial report is produced. -/
theorem rule_exception_propagates
    (rules : List (LFrame → Except String RuleResult)) (d : LFrame) :
    (∀ f ∈ rules, ∀ msg, f d = Except.error msg →
      ∃ m2, runE rules d = Except.error m2) ∧
    (∀ rep, runE rules d = Except.ok rep →
      (∀ f ∈ rules, ∃ r, f d = Except.ok r) ∧
      ∃ results, collectResults rules d = Except.ok results ∧
        rep = val_results_transform d results) := by
  constructor
  · intro f hf msg herr
    rcases collectResults_error rules d f hf msg herr with ⟨m2, hm2⟩
    exact ⟨m2, by simp [runE, hm2]⟩
  · intro rep hrep
    cases hcol : collectResults rules d with
    | error e =>
      rw [runE, hcol] at hrep
      cases hrep
    | ok results =>
      refine ⟨collectResults_ok rules d results hcol, results, rfl, ?_⟩
      rw [runE, hcol] at hrep
      exact (Except.ok.inj hrep).symm

/-- Claim C9, witness: the propagation theorem applied to a registry whose
only rule raises a KeyError on the concrete empty frame: runE propagates
the error. -/
theorem rule_exception_propagates_witness :
    ∃ m2, runE [fun _ => Except.error "KeyError: rec_oil"] [] =
      Except.error m2 := by
  exact (rule_exception_propagates
    [fun _ => Except.error "KeyError: rec_oil"] []).1
    (fun _ => Except.error "KeyError: rec_oil") (by simp)
    "KeyError: rec_oil" rfl

end Esdc
